import Mathlib

/-!
Verification of the `knowthefacts/algorithms` repository.

The repository is a collection of Python data-operations scripts.  This file
gives a shallow embedding of the parts relevant to its specification:

* the content-hash row diff of `src/sns.py` (`calculate_hashed_row_diffs`);
* the Glue job-cost calculator of `src/gjobs.py`;
* the authentication checks of `src/sns.py`, `src/pandas2.py` and
  `src/application/editor.py`;
* the S3 table load/save helpers of `src/pandas.py`, `src/pandas2.py` and
  `src/application/editor.py`, together with a model of the CSV
  serialize/parse cycle (`df.to_csv` / `pd.read_csv` with default options).

Tables are modelled at the level on which the scripts operate: a table is a
header (list of column names) plus a list of rows, each row a list of cells;
a cell is `Option String` (`none` models a pandas missing value `NaN`, and a
present cell is kept as the string pandas' `astype(str)` / `to_csv` rendering
would produce — the diff and the CSV cycle both work on this string view).
-/

/-- A cell of a table: `none` models a pandas `NaN` missing value, `some s`
a present value rendered as the string `s`. -/
abbrev Cell := Option String

/-- A row of a table, one cell per column. -/
abbrev Row := List Cell

/-- A tabular snapshot: column names plus rows, as the dashboards hold a
`pandas.DataFrame` in memory. -/
structure Table where
  cols : List String
  rows : List Row
deriving DecidableEq, Repr

/-- `pandas.DataFrame.empty`: a frame is empty when it has no rows or no
columns. -/
def Table.isEmptyDF (t : Table) : Bool :=
  t.rows.isEmpty || t.cols.isEmpty

/-- An empty `pd.DataFrame()` (no columns, no rows), the fallback value of
`src/pandas.py`'s `load_data_from_s3`. -/
def Table.emptyDF : Table := ⟨[], []⟩

/-- Lexicographic code-point comparison of char lists: Python's `<=` on
strings. -/
def charsLe : List Char → List Char → Bool
  | [], _ => true
  | _ :: _, [] => false
  | a :: as, b :: bs =>
      if a.toNat < b.toNat then true
      else if b.toNat < a.toNat then false
      else charsLe as bs

/-- Python's string `<=` (lexicographic by code point). -/
def strLe (a b : String) : Bool := charsLe a.data b.data

/-- Insert a string into a `strLe`-sorted list (helper for `sortedUnion`). -/
def insertStr (x : String) : List String → List String
  | [] => [x]
  | y :: ys => if strLe x y then x :: y :: ys else y :: insertStr x ys

/-- Insertion sort on strings, modelling Python's `sorted` on strings
(ascending lexicographic order). -/
def sortStrs : List String → List String
  | [] => []
  | x :: xs => insertStr x (sortStrs xs)

/-- `sorted(list(set(a) | set(b)))` from `src/sns.py` line 112: the sorted,
deduplicated union of two column lists. -/
def sortedUnion (a b : List String) : List String :=
  sortStrs ((a ++ b).dedup)

/-- Index of the first occurrence of a column name in a header. -/
def findIdx (c : String) : List String → Option Nat
  | [] => none
  | x :: xs => if x = c then some 0 else (findIdx c xs).map (· + 1)

/-- Cell of `row` (laid out along `cols`) at column `c`; `none` when the
column is absent, as `DataFrame.reindex(columns=all_cols)` fills absent
columns with `NaN`. -/
def lookupCell (cols : List String) (row : Row) (c : String) : Cell :=
  match findIdx c cols with
  | none => none
  | some i => (row.get? i).getD none

/-- `fillna('').astype(str)` on one cell: a missing value becomes the empty
string, a present cell keeps its string rendering (`src/sns.py` lines
118-119). -/
def cellStr : Cell → String
  | none => ""
  | some s => s

/-- The `_merge_key` of a row (`src/sns.py` lines 123/129): the `'-'`-join of
the string forms of its cells taken along the aligned column list
`allCols`. -/
def rowKey (allCols cols : List String) (row : Row) : String :=
  String.intercalate "-" (allCols.map fun c => cellStr (lookupCell cols row c))

/-- Shallow embedding of `calculate_hashed_row_diffs` (`src/sns.py` lines
105-150).  Mirrors the source exactly: the both-empty early return (line
109), alignment to the sorted union of the columns (lines 112-115), the
per-row `'-'`-joined merge key over stringified cells (lines 118-131, where a
frame with no rows or no columns contributes no keys), the empty-key-side
special cases (lines 134-139) and the `isin` masks (lines 141-144).  Returns
`(added_rows, deleted_rows)`. -/
def calculate_hashed_row_diffs (orig edited : Table) : List Row × List Row :=
  if orig.isEmptyDF && edited.isEmptyDF then ([], [])
  else
    let allCols := sortedUnion orig.cols edited.cols
    let origKeys := if orig.rows.isEmpty || allCols.isEmpty then []
                    else orig.rows.map (rowKey allCols orig.cols)
    let editKeys := if edited.rows.isEmpty || allCols.isEmpty then []
                    else edited.rows.map (rowKey allCols edited.cols)
    if origKeys.isEmpty then (edited.rows, [])
    else if editKeys.isEmpty then ([], orig.rows)
    else
      (edited.rows.filter fun r => !(origKeys.contains (rowKey allCols edited.cols r)),
       orig.rows.filter fun r => !(editKeys.contains (rowKey allCols orig.cols r)))

/-! ### General list helper lemmas -/

/-- `insertStr` never produces the empty list. -/
theorem insertStr_ne_nil (x : String) (l : List String) : insertStr x l ≠ [] := by
  cases l with
  | nil => simp [insertStr]
  | cons y ys =>
      simp only [insertStr]
      split <;> simp

/-- `sortStrs` maps nonempty lists to nonempty lists. -/
theorem sortStrs_ne_nil {l : List String} (h : l ≠ []) : sortStrs l ≠ [] := by
  cases l with
  | nil => exact absurd rfl h
  | cons x xs => exact insertStr_ne_nil x (sortStrs xs)

/-- The sorted union of column lists is nonempty as soon as one side is. -/
theorem sortedUnion_ne_nil {a b : List String} (h : a ≠ [] ∨ b ≠ []) :
    sortedUnion a b ≠ [] := by
  apply sortStrs_ne_nil
  simp only [ne_eq, List.dedup_eq_nil, List.append_eq_nil]
  rcases h with h | h
  · exact fun hc => h hc.1
  · exact fun hc => h hc.2

/-- A filter that rejects every element of a list produced by `List.set`
except the inserted one keeps exactly the inserted element. -/
theorem filter_set_singleton {α : Type} (p : α → Bool) :
    ∀ (l : List α) (i : Nat) (x : α), i < l.length → p x = true →
      (∀ y ∈ l, p y = false) → (l.set i x).filter p = [x] := by
  intro l
  induction l with
  | nil => intro i x hi; simp at hi
  | cons a t ih =>
      intro i x hi hx hall
      cases i with
      | zero =>
          simp only [List.set_cons_zero, List.filter_cons, hx]
          have ht : t.filter p = [] := by
            apply List.filter_eq_nil_iff.mpr
            intro y hy
            simp [hall y (List.mem_cons_of_mem a hy)]
          simp [ht]
      | succ k =>
          have ha : p a = false := hall a (List.mem_cons_self a t)
          simp only [List.set_cons_succ, List.filter_cons, ha]
          simp only [Bool.false_eq_true, if_false]
          exact ih k x (by simpa using hi) hx
            (fun y hy => hall y (List.mem_cons_of_mem a hy))

/-- A filter that accepts exactly the element at position `i` keeps exactly
that element. -/
theorem filter_eq_singleton_get {α : Type} (p : α → Bool) :
    ∀ (l : List α) (i : Nat) (hi : i < l.length),
      p (l.get ⟨i, hi⟩) = true →
      (∀ j (hj : j < l.length), j ≠ i → p (l.get ⟨j, hj⟩) = false) →
      l.filter p = [l.get ⟨i, hi⟩] := by
  intro l
  induction l with
  | nil => intro i hi; simp at hi
  | cons a t ih =>
      intro i hi hpi hrest
      cases i with
      | zero =>
          simp only [List.get] at hpi
          simp only [List.filter_cons, hpi]
          have ht : t.filter p = [] := by
            apply List.filter_eq_nil_iff.mpr
            intro y hy
            obtain ⟨j, hj, rfl⟩ := List.mem_iff_get.mp hy
            have := hrest (j + 1) (by simp) (by simp)
            simp only [List.get_cons_succ, Fin.eta] at this
            simpa using this
          simp [ht]
      | succ k =>
          have ha : p a = false := by
            have := hrest 0 (by simp) (by simp)
            simpa using this
          simp only [List.filter_cons, ha, Bool.false_eq_true, if_false]
          exact ih k (by simpa using hi) (by simpa using hpi)
            (fun j hj hne => by
              have := hrest (j + 1) (by simpa using hj) (by simpa using hne)
              simpa using this)

/-! ### C1: diffing a table against itself -/

/-- C1: For every table `T` (any columns, any rows, including duplicates and
missing values), `calculate_hashed_row_diffs T T` yields an empty set of
added rows and an empty set of deleted rows. -/
theorem diff_self_empty (T : Table) :
    calculate_hashed_row_diffs T T = ([], []) := by
  unfold calculate_hashed_row_diffs
  by_cases h : T.isEmptyDF
  · simp [h]
  · simp only [h, Bool.false_and, if_false]
    have hrows : T.rows.isEmpty = false := by
      cases hr : T.rows.isEmpty
      · rfl
      · exact absurd (by simp [Table.isEmptyDF, hr]) h
    have hcols : T.cols ≠ [] := by
      intro hc
      exact h (by simp [Table.isEmptyDF, hc])
    have hall : (sortedUnion T.cols T.cols).isEmpty = false := by
      simp only [List.isEmpty_eq_false_iff_exists_mem]
      obtain ⟨x, hx⟩ := List.exists_mem_of_ne_nil _ (sortedUnion_ne_nil (Or.inl hcols))
      exact ⟨x, hx⟩
    have hkeys : (T.rows.map (rowKey (sortedUnion T.cols T.cols) T.cols)).isEmpty = false := by
      simpa using hrows
    simp only [hrows, hall, Bool.false_or, Bool.false_eq_true, if_false, hkeys,
      Prod.mk.injEq]
    constructor <;>
    · apply List.filter_eq_nil_iff.mpr
      intro r hr
      simp only [Bool.not_eq_true, Bool.not_eq_false', List.contains_eq_any_beq,
        List.any_eq_true, beq_iff_eq, List.mem_map]
      exact ⟨rowKey (sortedUnion T.cols T.cols) T.cols r, ⟨r, hr, rfl⟩, rfl⟩

/-- A nonempty list is not `isEmpty`. -/
theorem isEmpty_false_of_ne_nil {α : Type} {l : List α} (h : l ≠ []) :
    l.isEmpty = false := by
  cases l with
  | nil => exact absurd rfl h
  | cons a t => rfl

/-- A value different from every image under `f` is not contained in the
mapped list. -/
theorem contains_map_false (f : Row → String) (l : List Row) (x : String)
    (h : ∀ a ∈ l, x ≠ f a) : (l.map f).contains x = false := by
  simp only [List.contains_eq_any_beq, List.any_eq_false, beq_iff_eq, List.mem_map]
  rintro y ⟨a, ha, rfl⟩
  exact h a ha

/-- The image of a member is contained in the mapped list. -/
theorem contains_map_true (f : Row → String) (l : List Row) (a : Row)
    (ha : a ∈ l) : (l.map f).contains (f a) = true := by
  simp only [List.contains_eq_any_beq, List.any_eq_true, beq_iff_eq, List.mem_map]
  exact ⟨f a, ⟨a, ha, rfl⟩, rfl⟩

/-! ### C3: diffing against an empty side -/

/-- C3: Diffing an empty original (no rows) against a non-empty edited table
(`DataFrame.empty = False`, i.e. at least one row and one column) reports
every edited row as added and nothing deleted; symmetrically, diffing a
non-empty original against an empty edited table reports every original row
as deleted and nothing added. -/
theorem diff_empty_original_and_empty_edited (O E : Table) :
    (O.rows = [] → E.isEmptyDF = false →
      calculate_hashed_row_diffs O E = (E.rows, [])) ∧
    (E.rows = [] → O.isEmptyDF = false →
      calculate_hashed_row_diffs O E = ([], O.rows)) := by
  constructor
  · intro hO hE
    have hOr : O.rows.isEmpty = true := by simp [hO]
    have hOe : O.isEmptyDF = true := by simp [Table.isEmptyDF, hO]
    unfold calculate_hashed_row_diffs
    simp [hOe, hE, hOr]
  · intro hE hO
    have hEr : E.rows.isEmpty = true := by simp [hE]
    have h2 : O.rows.isEmpty = false ∧ O.cols.isEmpty = false := by
      simpa [Table.isEmptyDF, Bool.or_eq_false_iff] using hO
    have hcols : O.cols ≠ [] := by
      intro hc
      simp [hc] at h2
    have hall : (sortedUnion O.cols E.cols).isEmpty = false :=
      isEmpty_false_of_ne_nil (sortedUnion_ne_nil (Or.inl hcols))
    have hkeys :
        (O.rows.map (rowKey (sortedUnion O.cols E.cols) O.cols)).isEmpty = false := by
      simpa using h2.1
    unfold calculate_hashed_row_diffs
    simp [hO, h2.1, hall, hkeys, hEr]

/-- Witness for C3 at concrete tables: empty original against a one-row
edited table, and the symmetric case. -/
theorem diff_empty_sides_witness :
    ((Table.mk ["a"] []).rows = [] ∧ (Table.mk ["a"] [[some "x"]]).isEmptyDF = false ∧
      calculate_hashed_row_diffs ⟨["a"], []⟩ ⟨["a"], [[some "x"]]⟩ = ([[some "x"]], [])) ∧
    ((Table.mk ["b"] []).rows = [] ∧ (Table.mk ["b"] [[some "y"]]).isEmptyDF = false ∧
      calculate_hashed_row_diffs ⟨["b"], [[some "y"]]⟩ ⟨["b"], []⟩ = ([], [[some "y"]])) :=
  ⟨⟨rfl, by decide,
    (diff_empty_original_and_empty_edited ⟨["a"], []⟩ ⟨["a"], [[some "x"]]⟩).1 rfl (by decide)⟩,
   ⟨rfl, by decide,
    (diff_empty_original_and_empty_edited ⟨["b"], [[some "y"]]⟩ ⟨["b"], []⟩).2 rfl (by decide)⟩⟩

/-! ### C2: a modified row as delete-plus-add -/

/-- One-row original table whose row is `("x-y", "z")`. -/
def c2orig : Table := ⟨["a", "b"], [[some "x-y", some "z"]]⟩

/-- The same table with the content of its single row changed in both cells,
to `("x", "y-z")`. -/
def c2edit : Table := ⟨["a", "b"], [[some "x", some "y-z"]]⟩

/-- C2 as stated is false on the code: `c2edit` changes the content of cells
of exactly one row of `c2orig`, yet `calculate_hashed_row_diffs` reports no
deleted and no added row, because both rows produce the same `'-'`-joined
merge key "x-y-z" (the join is ambiguous when cell contents contain the
separator).  So the old content is not reported as deleted nor the new
content as added. -/
theorem hashed_diff_modified_row_counterexample :
    c2orig.rows ≠ c2edit.rows ∧
    calculate_hashed_row_diffs c2orig c2edit = ([], []) := by
  constructor
  · decide
  · rfl

/-- C2 (amended): if the edited table is the original with the content of
exactly one row replaced, and the merge keys are unambiguous — the new
content's key matches no original row's key and the old content's key matches
no edited row's key — then the hash diff reports exactly the old content as
the one deleted row and the new content as the one added row.  (The diff's
result type is only an added/deleted pair: the hash-based diff itself has no
'modified' classification.)  The key-distinctness hypotheses are forced by
the counterexample: a content change whose `'-'`-joined key collides with an
existing key goes unreported. -/
theorem hashed_diff_modified_row (O : Table) (i : Nat) (hi : i < O.rows.length)
    (r' : Row) (hc : O.cols ≠ [])
    (hnew : ∀ r ∈ O.rows,
      rowKey (sortedUnion O.cols O.cols) O.cols r' ≠
        rowKey (sortedUnion O.cols O.cols) O.cols r)
    (hold : ∀ r ∈ O.rows.set i r',
      rowKey (sortedUnion O.cols O.cols) O.cols (O.rows.get ⟨i, hi⟩) ≠
        rowKey (sortedUnion O.cols O.cols) O.cols r) :
    calculate_hashed_row_diffs O ⟨O.cols, O.rows.set i r'⟩ =
      ([r'], [O.rows.get ⟨i, hi⟩]) := by
  have hrows : O.rows ≠ [] := List.ne_nil_of_length_pos (Nat.lt_of_le_of_lt (Nat.zero_le i) hi)
  have hOe : O.isEmptyDF = false := by
    simp [Table.isEmptyDF, Bool.or_eq_false_iff, isEmpty_false_of_ne_nil hrows,
      isEmpty_false_of_ne_nil hc]
  have hEr : (O.rows.set i r') ≠ [] := by
    intro h
    have := congrArg List.length h
    simp at this
    exact hrows this
  have hall : (sortedUnion O.cols O.cols).isEmpty = false :=
    isEmpty_false_of_ne_nil (sortedUnion_ne_nil (Or.inl hc))
  have hkO : (O.rows.map (rowKey (sortedUnion O.cols O.cols) O.cols)).isEmpty = false := by
    simpa using isEmpty_false_of_ne_nil hrows
  have hkE :
      ((O.rows.set i r').map (rowKey (sortedUnion O.cols O.cols) O.cols)).isEmpty
        = false := by
    simpa using isEmpty_false_of_ne_nil hEr
  unfold calculate_hashed_row_diffs
  simp only [hOe, Bool.false_and, Bool.false_eq_true, if_false]
  simp only [isEmpty_false_of_ne_nil hrows, isEmpty_false_of_ne_nil hEr, hall,
    Bool.false_or, Bool.false_eq_true, if_false, hkO, hkE, Prod.mk.injEq]
  constructor
  · apply filter_set_singleton _ O.rows i r' hi
    · show (!(O.rows.map (rowKey (sortedUnion O.cols O.cols) O.cols)).contains
          (rowKey (sortedUnion O.cols O.cols) O.cols r')) = true
      rw [contains_map_false _ _ _ hnew]
      rfl
    · intro y hy
      show (!(O.rows.map (rowKey (sortedUnion O.cols O.cols) O.cols)).contains
          (rowKey (sortedUnion O.cols O.cols) O.cols y)) = false
      rw [contains_map_true (rowKey (sortedUnion O.cols O.cols) O.cols) O.rows y hy]
      rfl
  · apply filter_eq_singleton_get _ O.rows i hi
    · show (!((O.rows.set i r').map (rowKey (sortedUnion O.cols O.cols) O.cols)).contains
          (rowKey (sortedUnion O.cols O.cols) O.cols (O.rows.get ⟨i, hi⟩))) = true
      rw [contains_map_false _ _ _ hold]
      rfl
    · intro j hj hne
      have hj2 : j < (O.rows.set i r').length := by simpa using hj
      have hget : (O.rows.set i r').get ⟨j, hj2⟩ = O.rows.get ⟨j, hj⟩ := by
        have h3 : i ≠ j := fun h => hne h.symm
        simp only [List.get_eq_getElem]
        exact List.getElem_set_ne h3 hj2
      have hmem : O.rows.get ⟨j, hj⟩ ∈ O.rows.set i r' := by
        rw [← hget]
        exact List.get_mem _ j hj2
      show (!((O.rows.set i r').map (rowKey (sortedUnion O.cols O.cols) O.cols)).contains
          (rowKey (sortedUnion O.cols O.cols) O.cols (O.rows.get ⟨j, hj⟩))) = false
      rw [contains_map_true (rowKey (sortedUnion O.cols O.cols) O.cols)
        (O.rows.set i r') _ hmem]
      rfl

/-- Witness for the amended C2 at a concrete one-row, one-column table:
changing the row `"x"` to `"y"` is reported as that row deleted and the new
row added. -/
theorem hashed_diff_modified_row_witness :
    (0 < (Table.mk ["a"] [[some "x"]]).rows.length) ∧
    (Table.mk ["a"] [[some "x"]]).cols ≠ [] ∧
    (∀ r ∈ (Table.mk ["a"] [[some "x"]]).rows,
      rowKey (sortedUnion ["a"] ["a"]) ["a"] [some "y"] ≠
        rowKey (sortedUnion ["a"] ["a"]) ["a"] r) ∧
    calculate_hashed_row_diffs ⟨["a"], [[some "x"]]⟩ ⟨["a"], [[some "y"]]⟩ =
      ([[some "y"]], [[some "x"]]) :=
  ⟨by decide, by decide, by decide,
    hashed_diff_modified_row ⟨["a"], [[some "x"]]⟩ 0 (by decide) [some "y"]
      (by decide) (by decide) (by decide)⟩

/-! ### The Glue job-cost calculator (`src/gjobs.py`)

The AWS calls (`get_job`, `get_job_runs`) are the environment: the pure model
takes their results as values.  Python `Decimal` arithmetic is modelled as
exact rational arithmetic (exact for every computation the claims touch:
`Decimal(str(x))` conversions, a division by 3600 that is exact at whole
hours, multiplications and sums). -/

/-- One Glue job run as `get_job_runs` returns it: optional start and
completion instants (seconds since the epoch, `none` for a missing field),
optional capacity fields, and the optional `JobRunState` string. -/
structure JobRun where
  startedOn : Option ℚ
  completedOn : Option ℚ
  allocatedCapacity : Option ℚ
  maxCapacity : Option ℚ
  jobRunState : Option String
deriving DecidableEq, Repr

/-- Job metadata as `get_job_details` (`src/gjobs.py` lines 121-144) returns
it: the Glue version string and the default capacity fallback. -/
structure JobDetails where
  glue_version : String
  default_max_capacity : ℚ
deriving DecidableEq, Repr

/-- `self.pricing` (`src/gjobs.py` lines 57-62): price per DPU-hour by Glue
version; `0.44` for versions 2.0 through 5.0. -/
def pricing : List (String × ℚ) :=
  [("2.0", 44/100), ("3.0", 44/100), ("4.0", 44/100), ("5.0", 44/100)]

/-- `self.pricing.get(glue_version, self.pricing['2.0'])` (line 167): look a
version up in the pricing dict, falling back to the 2.0 price. -/
def pricingGet (v : String) : ℚ :=
  ((pricing.find? (fun e => e.1 == v)).map (fun e => e.2)).getD (44/100)

/-- Python's `a or b` on an optional number, where both `None` and `0` are
falsy (the `AllocatedCapacity or MaxCapacity or default` chain on line
161-163). -/
def pyOr (a : Option ℚ) (b : ℚ) : ℚ :=
  match a with
  | none => b
  | some x => if x = 0 then b else x

/-- `calculate_job_run_cost` (`src/gjobs.py` lines 146-176): 0 when the start
or completion instant is missing, otherwise
`duration_hours * dpus * price_per_dpu_hour` with the DPU count taken from
the falsy-or chain over `AllocatedCapacity`, `MaxCapacity` and the job
default. -/
def calculate_job_run_cost (job_run : JobRun) (job_details : JobDetails) : ℚ :=
  match job_run.startedOn, job_run.completedOn with
  | some s, some c =>
      let execution_time_hours : ℚ := (c - s) / 3600
      let dpus : ℚ := pyOr job_run.allocatedCapacity
        (pyOr job_run.maxCapacity job_details.default_max_capacity)
      execution_time_hours * dpus * pricingGet job_details.glue_version
  | _, _ => 0

/-- One entry of the calculator's results list.  The sequential path
(`calculate_job_total_cost`) emits entries without `failed_runs`, `status` or
`error_message`; the parallel worker adds all three. -/
structure JobCostEntry where
  job_name : String
  glue_version : String
  total_runs : Nat
  successful_runs : Nat
  failed_runs : Option Nat
  total_cost_usd : ℚ
  status : Option String
  error_message : Option String
deriving DecidableEq, Repr

/-- The loop of `calculate_job_total_cost` / `_calculate_job_cost_worker`
over the fetched runs: accumulate `(total_cost, successful_runs,
failed_runs)`, where only runs in state SUCCEEDED contribute cost. -/
def runsFold (job_details : JobDetails) (runs : List JobRun) : ℚ × Nat × Nat :=
  runs.foldl
    (fun acc job_run =>
      if job_run.jobRunState == some "SUCCEEDED" then
        (acc.1 + calculate_job_run_cost job_run job_details, acc.2.1 + 1, acc.2.2)
      else (acc.1, acc.2.1, acc.2.2 + 1))
    (0, 0, 0)

/-- The per-job outcome as the worker body sees it, at the level of the
enclosing `try` of `_calculate_job_cost_worker` / `calculate_job_total_cost`:
`Except.ok` carries what `get_job_details` and
`get_job_runs_for_august_2025` returned, `Except.error e` an exception that
escaped to that handler (as a `boto3` client-construction failure does).
`fetchOfEnv` below builds this view from the raw API outcomes, including the
error paths those two helpers catch internally. -/
abbrev JobFetch := String → Except String (JobDetails × List JobRun)

/-- The raw per-job environment: an exception escaping to the caller's own
handler (`.error`), or the outcomes of the two Glue API calls — `get_job`
and the paginated `get_job_runs` — each of which may itself have raised. -/
abbrev GlueEnv :=
  String → Except String (Except String JobDetails × Except String (List JobRun))

/-- `get_job_details` (`src/gjobs.py` lines 121-144): `try get_job`; an API
error is caught, logged, and the defaults — Glue version '2.0', capacity
10 — returned instead. -/
def get_job_details (resp : Except String JobDetails) : JobDetails :=
  match resp with
  | .ok job_details => job_details
  | .error _ => { glue_version := "2.0", default_max_capacity := 10 }

/-- `get_job_runs_for_august_2025` (`src/gjobs.py` lines 88-119): `try` the
paginated `get_job_runs`; an API error is caught, logged, and the empty run
list returned instead. -/
def get_job_runs_for_august_2025 (resp : Except String (List JobRun)) : List JobRun :=
  match resp with
  | .ok job_runs => job_runs
  | .error _ => []

/-- The worker-level view of the raw environment: an escaping exception
passes through; otherwise the two helpers are applied to the raw API
outcomes, so a swallowed API error surfaces as default metadata or an empty
run list inside `.ok`. -/
def fetchOfEnv (env : GlueEnv) : JobFetch := fun job_name =>
  match env job_name with
  | .error e => .error e
  | .ok (details_resp, runs_resp) =>
      .ok (get_job_details details_resp, get_job_runs_for_august_2025 runs_resp)

/-- `calculate_job_total_cost` (`src/gjobs.py` lines 234-269): sum the cost
of SUCCEEDED runs; on an escaping error, a zero-cost entry (no status
field). -/
def calculate_job_total_cost (fetch : JobFetch) (job_name : String) : JobCostEntry :=
  match fetch job_name with
  | .ok (job_details, job_runs) =>
      let acc := runsFold job_details job_runs
      { job_name := job_name, glue_version := job_details.glue_version,
        total_runs := job_runs.length, successful_runs := acc.2.1,
        failed_runs := none, total_cost_usd := acc.1,
        status := none, error_message := none }
  | .error _ =>
      { job_name := job_name, glue_version := "Unknown", total_runs := 0,
        successful_runs := 0, failed_runs := none, total_cost_usd := 0,
        status := none, error_message := none }

/-- `_calculate_job_cost_worker` (`src/gjobs.py` lines 178-232): like the
sequential path but also counting failed runs and tagging the entry with
`status` 'success', or, when an error escapes to the worker's handler, a
zero-cost entry with `status` 'error' and the error message. -/
def _calculate_job_cost_worker (fetch : JobFetch) (job_name : String) : JobCostEntry :=
  match fetch job_name with
  | .ok (job_details, job_runs) =>
      let acc := runsFold job_details job_runs
      { job_name := job_name, glue_version := job_details.glue_version,
        total_runs := job_runs.length, successful_runs := acc.2.1,
        failed_runs := some acc.2.2, total_cost_usd := acc.1,
        status := some "success", error_message := none }
  | .error e =>
      { job_name := job_name, glue_version := "Unknown", total_runs := 0,
        successful_runs := 0, failed_runs := some 0, total_cost_usd := 0,
        status := some "error", error_message := some e }

/-- `calculate_costs_parallel` (`src/gjobs.py` lines 271-336).  When parallel
processing is off or exactly one job is submitted, the sequential fallback
maps `calculate_job_total_cost` over the names in order.  Otherwise one
worker runs per submitted name and results are appended in completion order;
`as_completed` makes that order nondeterministic, so the model takes it as an
explicit argument `order` (a permutation of the submission indices), and
theorems quantify over it. -/
def calculate_costs_parallel (fetch : JobFetch) (enable_parallel : Bool)
    (job_names : List String) (order : List Nat) : List JobCostEntry :=
  if !enable_parallel || job_names.length == 1 then
    job_names.map (calculate_job_total_cost fetch)
  else
    order.map (fun i => _calculate_job_cost_worker fetch (job_names.getD i ""))

/-! ### C4: the worked cost example -/

/-- The single run of C4: started 2025-08-01T00:00:00Z (epoch 1754006400),
completed 2025-08-01T01:00:00Z, allocated capacity 10, state SUCCEEDED. -/
def c4run : JobRun :=
  { startedOn := some 1754006400, completedOn := some 1754010000,
    allocatedCapacity := some 10, maxCapacity := none,
    jobRunState := some "SUCCEEDED" }

/-- C4's job metadata: a Glue version priced at 0.44 per DPU-hour. -/
def c4details : JobDetails := { glue_version := "3.0", default_max_capacity := 10 }

/-- C4: for the single SUCCEEDED run from 2025-08-01T00:00:00Z to
2025-08-01T01:00:00Z with allocated capacity 10 and unit price 0.44, the
run cost is exactly 4.40 in exact arithmetic (1.0 h x 10 x 0.44), and the
per-job aggregation over just that run reports total cost 4.40 from one
successful run. -/
theorem glue_cost_example_4_40 :
    calculate_job_run_cost c4run c4details = 440/100 ∧
    (calculate_job_total_cost (fun _ => .ok (c4details, [c4run])) "job").total_cost_usd
      = 440/100 ∧
    (calculate_job_total_cost (fun _ => .ok (c4details, [c4run])) "job").successful_runs
      = 1 := by
  have hb : ("2.0" == "3.0") = false := by decide
  have hb2 : ("3.0" == "3.0") = true := by decide
  refine ⟨?_, ?_, ?_⟩
  · norm_num [calculate_job_run_cost, c4run, c4details, pyOr, pricingGet, pricing,
      List.find?, hb, hb2]
  · norm_num [calculate_job_total_cost, runsFold, calculate_job_run_cost, c4run,
      c4details, pyOr, pricingGet, pricing, List.find?, hb, hb2]
  · norm_num [calculate_job_total_cost, runsFold, c4run, c4details]

/-- The run-summing loop, generalized over the accumulator: when no run is in
state SUCCEEDED, cost and success count are untouched and every run counts as
failed. -/
theorem runsFold_go_no_succeeded (jd : JobDetails) :
    ∀ (runs : List JobRun) (acc : ℚ × Nat × Nat),
      (∀ r ∈ runs, r.jobRunState ≠ some "SUCCEEDED") →
      runs.foldl
        (fun acc job_run =>
          if job_run.jobRunState == some "SUCCEEDED" then
            (acc.1 + calculate_job_run_cost job_run jd, acc.2.1 + 1, acc.2.2)
          else (acc.1, acc.2.1, acc.2.2 + 1))
        acc = (acc.1, acc.2.1, acc.2.2 + runs.length) := by
  intro runs
  induction runs with
  | nil => intro acc h; simp
  | cons r rs ih =>
      intro acc h
      have hr : (r.jobRunState == some "SUCCEEDED") = false := by
        simp only [beq_eq_false_iff_ne, ne_eq]
        exact h r (List.mem_cons_self r rs)
      simp only [List.foldl_cons, hr, Bool.false_eq_true, if_false]
      rw [ih _ (fun x hx => h x (List.mem_cons_of_mem r hx))]
      simp only [List.length_cons, Prod.mk.injEq, true_and]
      omega

/-- `runsFold` on a run list with no SUCCEEDED run: zero cost, zero
successes, all runs failed. -/
theorem runsFold_no_succeeded (jd : JobDetails) (runs : List JobRun)
    (h : ∀ r ∈ runs, r.jobRunState ≠ some "SUCCEEDED") :
    runsFold jd runs = (0, 0, runs.length) := by
  unfold runsFold
  rw [runsFold_go_no_succeeded jd runs (0, 0, 0) h]
  simp

/-! ### C5: jobs with no successful run cost 0.00 -/

/-- C5: for a job whose fetched run list contains no run in state SUCCEEDED
(a job with zero runs included), both the sequential per-job aggregation and
the parallel worker report total cost 0.00 and a successful-run count of
0. -/
theorem no_succeeded_runs_zero_cost (fetch : JobFetch) (job_name : String)
    (jd : JobDetails) (runs : List JobRun)
    (hf : fetch job_name = .ok (jd, runs))
    (h : ∀ r ∈ runs, r.jobRunState ≠ some "SUCCEEDED") :
    (calculate_job_total_cost fetch job_name).total_cost_usd = 0 ∧
    (calculate_job_total_cost fetch job_name).successful_runs = 0 ∧
    (_calculate_job_cost_worker fetch job_name).total_cost_usd = 0 ∧
    (_calculate_job_cost_worker fetch job_name).successful_runs = 0 := by
  unfold calculate_job_total_cost _calculate_job_cost_worker
  rw [hf]
  simp [runsFold_no_succeeded jd runs h]

/-- A run that did not succeed (state FAILED), for the C5 witness. -/
def c5run : JobRun :=
  { startedOn := some 0, completedOn := some 3600,
    allocatedCapacity := some 10, maxCapacity := none,
    jobRunState := some "FAILED" }

/-- Job metadata for the C5 witness. -/
def c5details : JobDetails := { glue_version := "4.0", default_max_capacity := 10 }

/-- Environment for the C5 witness: every job resolves to one FAILED run. -/
def c5fetch : JobFetch := fun _ => .ok (c5details, [c5run])

/-- Witness for C5 at a concrete job whose only run is FAILED. -/
theorem no_succeeded_runs_zero_cost_witness :
    c5fetch "job" = .ok (c5details, [c5run]) ∧
    (∀ r ∈ [c5run], r.jobRunState ≠ some "SUCCEEDED") ∧
    ((calculate_job_total_cost c5fetch "job").total_cost_usd = 0 ∧
     (calculate_job_total_cost c5fetch "job").successful_runs = 0 ∧
     (_calculate_job_cost_worker c5fetch "job").total_cost_usd = 0 ∧
     (_calculate_job_cost_worker c5fetch "job").successful_runs = 0) :=
  ⟨rfl, by decide,
    no_succeeded_runs_zero_cost c5fetch "job" c5details [c5run] rfl (by decide)⟩

/-- The sequential path labels each entry with the submitted job name. -/
theorem job_name_total_cost (fetch : JobFetch) (n : String) :
    (calculate_job_total_cost fetch n).job_name = n := by
  unfold calculate_job_total_cost
  cases hv : fetch n with
  | ok v => cases v; rfl
  | error e => rfl

/-- The parallel worker labels each entry with the submitted job name. -/
theorem job_name_worker (fetch : JobFetch) (n : String) :
    (_calculate_job_cost_worker fetch n).job_name = n := by
  unfold _calculate_job_cost_worker
  cases hv : fetch n with
  | ok v => cases v; rfl
  | error e => rfl

/-- Reading a list back off by its indices: mapping `getD` over
`range l.length` returns the list itself. -/
theorem map_getD_range (l : List String) :
    (List.range l.length).map (fun i => l.getD i "") = l := by
  induction l with
  | nil => simp
  | cons a t ih =>
      rw [List.length_cons, List.range_succ_eq_map]
      simp only [List.map_cons, List.map_map]
      have hf : ((fun i => (a :: t).getD i "") ∘ Nat.succ) = (fun i => t.getD i "") := by
        funext i
        simp [List.getD_cons_succ]
      rw [hf, ih]
      rfl

/-! ### C10: one result entry per submitted job name -/

/-- C10: for every submitted list of job names, the batch returns exactly
one entry per submitted name — the output has the input's length and the
multiset of its `job_name` fields is exactly the submitted names — in both
the parallel path (for every completion order) and the sequential fallback
path. -/
theorem costs_parallel_one_entry_per_job (fetch : JobFetch) (enable_parallel : Bool)
    (job_names : List String) (order : List Nat)
    (hperm : order.Perm (List.range job_names.length)) :
    (calculate_costs_parallel fetch enable_parallel job_names order).length
      = job_names.length ∧
    ((calculate_costs_parallel fetch enable_parallel job_names order).map
      (fun e => e.job_name)).Perm job_names := by
  unfold calculate_costs_parallel
  by_cases h : (!enable_parallel || job_names.length == 1) = true
  · simp only [h, if_true]
    have hmap : (job_names.map (calculate_job_total_cost fetch)).map
        (fun e => e.job_name) = job_names := by
      rw [List.map_map]
      have hf : ((fun e : JobCostEntry => e.job_name) ∘ calculate_job_total_cost fetch)
          = fun n => n := funext (fun n => job_name_total_cost fetch n)
      rw [hf, List.map_id']
    exact ⟨by simp, by rw [hmap]⟩
  · simp only [h, Bool.false_eq_true, if_false]
    constructor
    · rw [List.length_map, hperm.length_eq, List.length_range]
    · rw [List.map_map]
      have hf : ((fun e : JobCostEntry => e.job_name) ∘
          fun i => _calculate_job_cost_worker fetch (job_names.getD i ""))
          = fun i => job_names.getD i "" :=
        funext (fun i => job_name_worker fetch (job_names.getD i ""))
      rw [hf]
      have := hperm.map (fun i => job_names.getD i "")
      rw [map_getD_range job_names] at this
      exact this

/-- Witness for C10: two job names, completion order reversed, an
environment in which every fetch fails. -/
theorem costs_parallel_one_entry_per_job_witness :
    ([1, 0] : List Nat).Perm (List.range (["a", "b"] : List String).length) ∧
    (calculate_costs_parallel (fun _ => .error "down") true ["a", "b"] [1, 0]).length
      = (["a", "b"] : List String).length ∧
    ((calculate_costs_parallel (fun _ => .error "down") true ["a", "b"] [1, 0]).map
      (fun e => e.job_name)).Perm ["a", "b"] :=
  ⟨by decide,
    costs_parallel_one_entry_per_job (fun _ => .error "down") true ["a", "b"] [1, 0]
      (by decide)⟩

/-- In the parallel path, every submitted job name's worker entry is in the
collected results (for any completion order). -/
theorem worker_mem_parallel (fetch : JobFetch) (job_names : List String)
    (order : List Nat) (hperm : order.Perm (List.range job_names.length))
    (hlen : job_names.length ≠ 1) (n2 : String) (hmem : n2 ∈ job_names) :
    _calculate_job_cost_worker fetch n2 ∈
      calculate_costs_parallel fetch true job_names order := by
  unfold calculate_costs_parallel
  have hcond : (!true || job_names.length == 1) = false := by simp [hlen]
  simp only [hcond, Bool.false_eq_true, if_false]
  obtain ⟨⟨j, hj⟩, rfl⟩ := List.mem_iff_get.mp hmem
  have hjo : j ∈ order := (hperm.mem_iff).mpr (List.mem_range.mpr hj)
  apply List.mem_map.mpr
  refine ⟨j, hjo, ?_⟩
  rw [List.getD_eq_getElem job_names "" hj]
  rfl

/-! ### C6: error reporting in the batch -/

/-- Raw environment refuting C6 as stated: for the job "throttled" the
`get_job_runs` API call raises; every other job resolves cleanly. -/
def c6apiEnv : GlueEnv := fun n =>
  if n == "throttled" then .ok (.ok ⟨"3.0", 10⟩, .error "ThrottlingException")
  else .ok (.ok ⟨"3.0", 10⟩, .ok [])

/-- C6 as stated is false on the code: an API error raised while processing
the job "throttled" is swallowed inside `get_job_runs_for_august_2025`
(`src/gjobs.py` lines 117-119), so its batch entry carries `status`
'success' and no error flag — every status in the batch output is 'success',
none is 'error'.  And on the sequential fallback path
(`calculate_job_total_cost`, lines 261-269) even an error that escapes to
the handler yields an entry with no status field at all. -/
theorem batch_error_reporting_counterexample :
    (_calculate_job_cost_worker (fetchOfEnv c6apiEnv) "throttled").status
      = some "success" ∧
    (_calculate_job_cost_worker (fetchOfEnv c6apiEnv) "throttled").error_message
      = none ∧
    (calculate_costs_parallel (fetchOfEnv c6apiEnv) true
        ["throttled", "other"] [0, 1]).map (fun entry => entry.status)
      = [some "success", some "success"] ∧
    (calculate_job_total_cost (fun _ => .error "boom") "job").status = none := by
  exact ⟨rfl, rfl, rfl, rfl⟩

/-- C6 (amended): in the parallel batch, a job whose error escapes to the
worker's handler is caught and reported as a zero-cost entry with status
'error' carrying the message, and the batch is not aborted — for any
completion order the output keeps one entry per submitted name, every
submitted name's entry is present, and workers of other names are
unaffected by the failing job.  But not every error raised during a job's
processing is so flagged: an API error inside `get_job_details` or
`get_job_runs_for_august_2025` is swallowed there, and the job is reported
as a zero-run, zero-cost entry with status 'success' and no error flag; and
the sequential fallback path attaches no status field to any entry, so even
its caught errors carry no flag. -/
theorem batch_error_reporting (env : GlueEnv) (job_names : List String)
    (order : List Nat) (name : String)
    (hperm : order.Perm (List.range job_names.length))
    (hlen : job_names.length ≠ 1)
    (hmem : name ∈ job_names) :
    (∀ e, env name = .error e →
      ({ job_name := name, glue_version := "Unknown", total_runs := 0,
         successful_runs := 0, failed_runs := some 0, total_cost_usd := 0,
         status := some "error", error_message := some e } : JobCostEntry)
        ∈ calculate_costs_parallel (fetchOfEnv env) true job_names order) ∧
    (calculate_costs_parallel (fetchOfEnv env) true job_names order).length
      = job_names.length ∧
    (∀ n2 ∈ job_names, _calculate_job_cost_worker (fetchOfEnv env) n2 ∈
      calculate_costs_parallel (fetchOfEnv env) true job_names order) ∧
    (∀ env2 : GlueEnv, (∀ m, m ≠ name → env2 m = env m) →
      ∀ n2 ∈ job_names, n2 ≠ name →
        _calculate_job_cost_worker (fetchOfEnv env2) n2
          = _calculate_job_cost_worker (fetchOfEnv env) n2) ∧
    (∀ details_resp er, env name = .ok (details_resp, .error er) →
      _calculate_job_cost_worker (fetchOfEnv env) name =
        { job_name := name,
          glue_version := (get_job_details details_resp).glue_version,
          total_runs := 0, successful_runs := 0, failed_runs := some 0,
          total_cost_usd := 0, status := some "success",
          error_message := none }) ∧
    (∀ n2 : String, (calculate_job_total_cost (fetchOfEnv env) n2).status = none) := by
  refine ⟨?_, ?_, ?_, ?_, ?_, ?_⟩
  · intro e herr
    have hworker : _calculate_job_cost_worker (fetchOfEnv env) name =
        { job_name := name, glue_version := "Unknown", total_runs := 0,
          successful_runs := 0, failed_runs := some 0, total_cost_usd := 0,
          status := some "error", error_message := some e } := by
      unfold _calculate_job_cost_worker fetchOfEnv
      rw [herr]
    rw [← hworker]
    exact worker_mem_parallel (fetchOfEnv env) job_names order hperm hlen name hmem
  · unfold calculate_costs_parallel
    have hcond : (!true || job_names.length == 1) = false := by simp [hlen]
    simp only [hcond, Bool.false_eq_true, if_false]
    rw [List.length_map, hperm.length_eq, List.length_range]
  · intro n2 hn2
    exact worker_mem_parallel (fetchOfEnv env) job_names order hperm hlen n2 hn2
  · intro env2 hagree n2 _ hne
    unfold _calculate_job_cost_worker fetchOfEnv
    rw [hagree n2 hne]
  · intro details_resp er hswallow
    unfold _calculate_job_cost_worker fetchOfEnv
    rw [hswallow]
    rfl
  · intro n2
    unfold calculate_job_total_cost
    cases fetchOfEnv env n2 with
    | ok v => cases v; rfl
    | error e => rfl

/-- Raw environment for the C6 witness: the job "bad" raises before the API
calls, "throttled" has its `get_job_runs` call raise (swallowed), every
other job resolves to an empty run list. -/
def c6env : GlueEnv := fun n =>
  if n == "bad" then .error "boom"
  else if n == "throttled" then .ok (.ok ⟨"3.0", 10⟩, .error "AccessDenied")
  else .ok (.ok ⟨"3.0", 10⟩, .ok [])

/-- Witness for the amended C6: three jobs, one with an escaping error; its
error-flagged entry is in the batch output, the output keeps one entry per
job, and the swallowed-error job is reported flagless 'success'. -/
theorem batch_error_reporting_witness :
    ([2, 0, 1] : List Nat).Perm
      (List.range (["good", "bad", "throttled"] : List String).length) ∧
    (["good", "bad", "throttled"] : List String).length ≠ 1 ∧
    "bad" ∈ (["good", "bad", "throttled"] : List String) ∧
    c6env "bad" = .error "boom" ∧
    (({ job_name := "bad", glue_version := "Unknown", total_runs := 0,
        successful_runs := 0, failed_runs := some 0, total_cost_usd := 0,
        status := some "error", error_message := some "boom" } : JobCostEntry)
      ∈ calculate_costs_parallel (fetchOfEnv c6env) true
          ["good", "bad", "throttled"] [2, 0, 1]) ∧
    (calculate_costs_parallel (fetchOfEnv c6env) true
        ["good", "bad", "throttled"] [2, 0, 1]).length = 3 ∧
    _calculate_job_cost_worker (fetchOfEnv c6env) "throttled" =
      { job_name := "throttled", glue_version := "3.0", total_runs := 0,
        successful_runs := 0, failed_runs := some 0, total_cost_usd := 0,
        status := some "success", error_message := none } :=
  ⟨by decide, by decide, by decide, rfl,
    (batch_error_reporting c6env ["good", "bad", "throttled"] [2, 0, 1] "bad"
      (by decide) (by decide) (by decide)).1 "boom" rfl,
    (batch_error_reporting c6env ["good", "bad", "throttled"] [2, 0, 1] "bad"
      (by decide) (by decide) (by decide)).2.1,
    (batch_error_reporting c6env ["good", "bad", "throttled"] [2, 0, 1] "throttled"
      (by decide) (by decide) (by decide)).2.2.2.2.1 (.ok ⟨"3.0", 10⟩)
      "AccessDenied" rfl⟩

/-! ### Authentication (`src/sns.py`, `src/pandas2.py`,
`src/application/editor.py`)

The secret fetch (plus JSON parse / literal eval of the payload) is the
environment, modelled as an `Except`: `.ok` holds the parsed secret, `.error`
an exception raised while fetching or parsing. -/

/-- The parsed secret payload: a dict whose `get('username')` /
`get('password')` may each be absent. -/
structure Secrets where
  username : Option String
  password : Option String
deriving DecidableEq, Repr

namespace SnsApp

/-- `authenticate` from `src/sns.py` lines 31-39: the whole fetch-and-parse
is inside a `try`; any exception is caught and yields `False`; otherwise the
supplied pair is compared with the stored pair. -/
def authenticate (fetchSecret : Except String Secrets)
    (username_attempt password_attempt : String) : Bool :=
  match fetchSecret with
  | .error _ => false
  | .ok secrets =>
      (secrets.username == some username_attempt) &&
      (secrets.password == some password_attempt)

end SnsApp

namespace Pandas2App

/-- `authenticate` from `src/pandas2.py` lines 23-26: no `try` — an
exception from `get_secret_value` or from `eval` of the payload propagates
to the caller (modelled as `.error`); only a successful fetch compares the
pair. -/
def authenticate (fetchSecret : Except String Secrets)
    (username password : String) : Except String Bool :=
  match fetchSecret with
  | .error e => .error e
  | .ok secrets =>
      .ok ((secrets.username == some username) &&
        (secrets.password == some password))

end Pandas2App

namespace EditorApp

/-- The stored credentials of `src/application/editor.py`: username plus a
SHA-256 password hash. -/
structure Credentials where
  username : Option String
  password_hash : Option String
deriving DecidableEq, Repr

/-- `get_credentials_from_secrets` (`src/application/editor.py` lines
27-36): a `ClientError` from the fetch is caught and `None` returned;
otherwise the parsed credentials. -/
def get_credentials_from_secrets (fetchSecret : Except String Credentials) :
    Option Credentials :=
  match fetchSecret with
  | .error _ => none
  | .ok credentials => some credentials

/-- `verify_credentials` (`src/application/editor.py` lines 38-50): `False`
when no credentials could be fetched; otherwise the supplied username and
the SHA-256 hash of the supplied password are compared with the stored
pair.  The hash function is a parameter of the model. -/
def verify_credentials (sha256 : String → String)
    (fetchSecret : Except String Credentials) (username password : String) : Bool :=
  match get_credentials_from_secrets fetchSecret with
  | none => false
  | some credentials =>
      (credentials.username == some username) &&
      (credentials.password_hash == some (sha256 password))

end EditorApp

/-! ### C7: the authentication contract -/

/-- C7 as stated is false on the code: in the `src/pandas2.py` variant a
missing or unfetchable secret does not return failure — the exception
propagates to the caller instead of being caught. -/
theorem authenticate_missing_secret_counterexample :
    Pandas2App.authenticate (.error "SecretNotFound") "user" "pw"
      = .error "SecretNotFound" ∧
    Pandas2App.authenticate (.error "SecretNotFound") "user" "pw"
      ≠ .ok false := by
  exact ⟨rfl, fun h => Except.noConfusion h⟩

/-- C7 (amended): in the `src/sns.py` and `src/application/editor.py`
variants the check succeeds exactly when the supplied username equals the
stored one and the supplied password matches the stored one (for editor.py,
matching its stored SHA-256 hash), any mismatch fails, and a missing or
unfetchable secret returns failure without raising; the `src/pandas2.py`
variant instead propagates the fetch error. -/
theorem authenticate_contract (s : Secrets) (c : EditorApp.Credentials)
    (sha256 : String → String) (u p e : String) :
    (SnsApp.authenticate (.ok s) u p
      = ((s.username == some u) && (s.password == some p))) ∧
    (SnsApp.authenticate (.error e) u p = false) ∧
    (EditorApp.verify_credentials sha256 (.ok c) u p
      = ((c.username == some u) && (c.password_hash == some (sha256 p)))) ∧
    (EditorApp.verify_credentials sha256 (.error e) u p = false) ∧
    (Pandas2App.authenticate (.error e) u p = .error e) :=
  ⟨rfl, rfl, rfl, rfl, rfl⟩

/-! ### The CSV serialize/parse cycle (`df.to_csv(index=False)` /
`pd.read_csv` with default options)

`to_csv` writes a header line and one line per row, comma-separated, each
line terminated by a newline; a field containing a separator, quote or line
break is quoted, with inner quotes doubled (QUOTE_MINIMAL); a missing value
is written as the empty field (`na_rep=''`).  `read_csv` splits on commas
outside quotes, un-doubles quotes, skips blank lines
(`skip_blank_lines=True`), takes the first record as the header, and maps
any field equal to one of the default NA sentinels (the empty string
included) to a missing value.  Cells are modelled as the strings of the
written file, so pandas' dtype inference is identity on them. -/

/-- Characters that force quoting under QUOTE_MINIMAL: the separator, the
quote char and line breaks. -/
def isSpecialChar (c : Char) : Bool :=
  c = ',' || c = '\"' || c = '\n' || c = '\r'

/-- `str.replace('"', '""')` at character level: double every quote. -/
def escapeQuotes : List Char → List Char
  | [] => []
  | c :: cs =>
      if c = '\"' then '\"' :: '\"' :: escapeQuotes cs
      else c :: escapeQuotes cs

/-- Render one field: quoted (with doubling) when it contains a special
character, verbatim otherwise. -/
def quoteChars (cs : List Char) : List Char :=
  if cs.any isSpecialChar then '\"' :: (escapeQuotes cs ++ ['\"']) else cs

/-- The raw characters a cell contributes before quoting: a missing value is
written as the empty field (`na_rep=''`). -/
def rawChars : Cell → List Char
  | none => []
  | some s => s.data

/-- The raw string of a cell (what a faithful reader sees before NA
conversion). -/
def rawField : Cell → String
  | none => ""
  | some s => s

/-- Comma-join of rendered fields. -/
def joinComma : List (List Char) → List Char
  | [] => []
  | [f] => f
  | f :: g :: t => f ++ ',' :: joinComma (g :: t)

/-- One data line: the row's cells rendered, comma-joined, newline
terminated. -/
def rowChars (r : Row) : List Char :=
  joinComma (r.map (fun c => quoteChars (rawChars c))) ++ ['\n']

/-- The header line: the column names rendered like fields. -/
def headerChars (cols : List String) : List Char :=
  joinComma (cols.map (fun c => quoteChars c.data)) ++ ['\n']

/-- `df.to_csv(index=False)`: header line then one line per row. -/
def tableToCsv (t : Table) : String :=
  ⟨headerChars t.cols ++ (t.rows.map rowChars).flatten⟩

/-- Parser mode of the CSV reader's state machine. -/
inductive PMode
  | fieldStart
  | unquoted
  | quoted
  | afterQuote
deriving DecidableEq, Repr

/-- State of the CSV reader: characters of the current field, fields of the
current record, completed records, and the mode. -/
structure PState where
  cur : List Char
  row : List String
  acc : List (List String)
  mode : PMode
deriving DecidableEq, Repr

/-- One character step of the CSV reader (the C parser's field/quote state
machine with `skip_blank_lines=True`: a newline on an empty record emits
nothing). -/
def csvStep (st : PState) (c : Char) : PState :=
  match st.mode with
  | .quoted =>
      if c = '\"' then { st with mode := .afterQuote }
      else { st with cur := st.cur ++ [c] }
  | .afterQuote =>
      if c = '\"' then { st with cur := st.cur ++ ['\"'], mode := .quoted }
      else if c = ',' then
        { cur := [], row := st.row ++ [String.mk st.cur], acc := st.acc,
          mode := .fieldStart }
      else if c = '\n' then
        { cur := [], row := [],
          acc := st.acc ++ [st.row ++ [String.mk st.cur]], mode := .fieldStart }
      else { st with cur := st.cur ++ [c], mode := .unquoted }
  | .fieldStart =>
      if c = '\"' then { st with mode := .quoted }
      else if c = ',' then
        { cur := [], row := st.row ++ [""], acc := st.acc, mode := .fieldStart }
      else if c = '\n' then
        if st.row.isEmpty then st
        else { cur := [], row := [], acc := st.acc ++ [st.row ++ [""]],
               mode := .fieldStart }
      else { st with cur := [c], mode := .unquoted }
  | .unquoted =>
      if c = ',' then
        { cur := [], row := st.row ++ [String.mk st.cur], acc := st.acc,
          mode := .fieldStart }
      else if c = '\n' then
        { cur := [], row := [],
          acc := st.acc ++ [st.row ++ [String.mk st.cur]], mode := .fieldStart }
      else { st with cur := st.cur ++ [c] }

/-- Initial reader state. -/
def initPState : PState := ⟨[], [], [], .fieldStart⟩

/-- End of input: flush a pending record (none is pending after a final
newline). -/
def csvFinish (st : PState) : List (List String) :=
  match st.mode with
  | .fieldStart => if st.row.isEmpty then st.acc else st.acc ++ [st.row ++ [""]]
  | _ => st.acc ++ [st.row ++ [String.mk st.cur]]

/-- Split a CSV text into records of raw fields. -/
def parseCsvRaw (s : String) : List (List String) :=
  csvFinish (s.data.foldl csvStep initPState)

/-- `pd.read_csv`'s default NA sentinels (`keep_default_na=True`): a field
equal to one of these is read as a missing value. -/
def naValues : List String :=
  ["", "#N/A", "#N/A N/A", "#NA", "-1.#IND", "-1.#QNAN", "-NaN", "-nan",
   "1.#IND", "1.#QNAN", "<NA>", "N/A", "NA", "NULL", "NaN", "None",
   "n/a", "nan", "null"]

/-- NA conversion of one data field. -/
def naCell (f : String) : Cell :=
  if f ∈ naValues then none else some f

/-- `pd.read_csv` on a whole text: `none` models `EmptyDataError` (no
records at all); otherwise the first record is the header and the rest are
rows with NA conversion applied.

This is the value view of `read_csv` for object-dtype columns, where the
reader keeps the raw field strings (and for all-missing columns, whose
cells are `NaN` under any dtype).  What it does not model: column dtype
inference, which re-renders columns every field of which parses as a number
or boolean (`"01"` reloads as the integer `1`, `"true"` as a boolean), and
header mangling (an empty column name becomes `Unnamed: n`, duplicate names
gain `.1` suffixes).  The round-trip theorem below therefore restricts
itself, through the `colObjectSafe` and header hypotheses, to tables on
which the real reader agrees with this view. -/
def parseCsv (s : String) : Option Table :=
  match parseCsvRaw s with
  | [] => none
  | header :: dataRows => some ⟨header, dataRows.map (fun r => r.map naCell)⟩

/-- Blanks the numeric parsers of `read_csv` skip at either end of a
field. -/
def isBlankChar (c : Char) : Bool :=
  c = ' ' || c = '\t' || c = '\r' || c = '\n'

/-- Strip blanks from both ends of a field's characters. -/
def trimBlanks (cs : List Char) : List Char :=
  ((cs.dropWhile isBlankChar).reverse.dropWhile isBlankChar).reverse

/-- Drop one leading sign. -/
def dropSign : List Char → List Char
  | '+' :: cs => cs
  | '-' :: cs => cs
  | cs => cs

/-- One or more ASCII digits and nothing else. -/
def allDigits1 (cs : List Char) : Bool :=
  !cs.isEmpty && cs.all Char.isDigit

/-- Greedily consume digits and decimal points: (digit count, point count,
rest). -/
def mantissa : List Char → Nat × Nat × List Char
  | [] => (0, 0, [])
  | c :: cs =>
      if c.isDigit then
        let m := mantissa cs
        (m.1 + 1, m.2.1, m.2.2)
      else if c = '.' then
        let m := mantissa cs
        (m.1, m.2.1 + 1, m.2.2)
      else (0, 0, c :: cs)

/-- A valid exponent tail: empty, or `e`/`E`, an optional sign and
digits. -/
def isExpTail : List Char → Bool
  | [] => true
  | 'e' :: cs => allDigits1 (dropSign cs)
  | 'E' :: cs => allDigits1 (dropSign cs)
  | _ => false

/-- ASCII lowercasing of one character. -/
def lowerChar (c : Char) : Char :=
  if 65 ≤ c.toNat && c.toNat ≤ 90 then Char.ofNat (c.toNat + 32) else c

/-- Over-approximation of the fields `read_csv`'s column inference might
parse as an integer or float (optional surrounding blanks and sign, digits
with at most one decimal point and at least one digit, an optional
exponent; or a spelled infinity/nan).  Over-approximating is the sound
direction: only a field this rejects is relied on to force object dtype. -/
def isNumericLike (s : String) : Bool :=
  let cs := dropSign (trimBlanks s.data)
  let m := mantissa cs
  (decide (0 < m.1) && decide (m.2.1 ≤ 1) && isExpTail m.2.2)
  || (String.mk (cs.map lowerChar) ∈ ["inf", "infinity", "nan"])

/-- Over-approximation of the fields `read_csv`'s column inference might
parse as a boolean (any casing of true/false). -/
def isBoolLike (s : String) : Bool :=
  String.mk ((trimBlanks s.data).map lowerChar) ∈ ["true", "false"]

/-- A cell that surely forces its column to object dtype: a present string
that cannot parse as a number or boolean, so the whole column is read back
as plain strings. -/
def forcesObject : Cell → Bool
  | none => false
  | some s => !(isNumericLike s || isBoolLike s)

/-- Column `j` of a table reads back verbatim: either some cell of the
column forces object dtype, or the column is entirely missing (its cells
are `NaN` under any inferred dtype). -/
def colObjectSafe (t : Table) (j : Nat) : Bool :=
  t.rows.any (fun r => forcesObject (r.getD j none))
  || t.rows.all (fun r => r.getD j none == none)

namespace PandasApp

/-- `load_data_from_s3` (`src/pandas.py` lines 53-62, AWS branch): the S3
get plus `pd.read_csv` are the environment; any exception is caught and an
empty `pd.DataFrame()` returned. -/
def load_data_from_s3 (fetchResult : Except String Table) : Table :=
  match fetchResult with
  | .ok df => df
  | .error _ => Table.emptyDF

end PandasApp

namespace EditorApp

/-- `load_data_from_s3` (`src/application/editor.py` lines 71-81): a
`ClientError` is caught, displayed, and `None` returned — not a table. -/
def load_data_from_s3 (fetchResult : Except String Table) : Option Table :=
  match fetchResult with
  | .ok df => some df
  | .error _ => none

/-- `save_data_to_s3` (`src/application/editor.py` lines 83-99): the object
body written to storage is the CSV text of the frame
(`df.to_csv(csv_buffer, index=False)`). -/
def save_data_to_s3 (df : Table) : String := tableToCsv df

end EditorApp

namespace Pandas2App

/-- `load_csv_s3` (`src/pandas2.py` lines 29-31): no `try` — the body is
fetched and parsed, and any failure propagates to the caller. -/
def load_csv_s3 (getObject : Except String String) : Except String Table :=
  match getObject with
  | .error e => .error e
  | .ok body =>
      match parseCsv body with
      | none => .error "EmptyDataError"
      | some df => .ok df

end Pandas2App

/-! ### C8: failing loads and safe defaults -/

/-- C8 as stated is false on the code: the `src/pandas2.py` loader does not
catch a failing storage fetch at all — the error propagates to the caller
instead of an empty table being returned. -/
theorem load_error_default_counterexample :
    Pandas2App.load_csv_s3 (.error "connection refused")
      = .error "connection refused" ∧
    Pandas2App.load_csv_s3 (.error "connection refused")
      ≠ .ok Table.emptyDF :=
  ⟨rfl, fun h => Except.noConfusion h⟩

/-- C8 (amended): on a failing storage fetch, the `src/pandas.py` loader
catches and returns an empty table, the `src/application/editor.py` loader
catches and returns a `None` sentinel (the caller renders an error), and the
`src/pandas2.py` loader propagates the failure. -/
theorem load_error_defaults (e : String) :
    PandasApp.load_data_from_s3 (.error e) = Table.emptyDF ∧
    EditorApp.load_data_from_s3 (.error e) = none ∧
    Pandas2App.load_csv_s3 (.error e) = .error e ∧
    (∀ df : Table, PandasApp.load_data_from_s3 (.ok df) = df ∧
      EditorApp.load_data_from_s3 (.ok df) = some df) :=
  ⟨rfl, rfl, rfl, fun _ => ⟨rfl, rfl⟩⟩

/-! ### C9: the save/reload round trip -/

/-- C9 as stated is false on the code: a cell holding the empty string is
written as an empty field and read back as a missing value, so the reloaded
table differs from the saved one in that non-system cell. -/
theorem save_load_roundtrip_counterexample :
    parseCsv (EditorApp.save_data_to_s3 ⟨["a", "b"], [[some "", some "x"]]⟩)
      = some ⟨["a", "b"], [[none, some "x"]]⟩ ∧
    parseCsv (EditorApp.save_data_to_s3 ⟨["a", "b"], [[some "", some "x"]]⟩)
      ≠ some ⟨["a", "b"], [[some "", some "x"]]⟩ := by
  exact ⟨rfl, by decide⟩

/-- A cell whose written form reads back as itself: missing, or a string
that is not one of the NA sentinels. -/
def cellOk : Cell → Bool
  | none => true
  | some s => decide (s ∉ naValues)

/-- NA conversion undoes the raw rendering of an ok cell. -/
theorem naCell_rawField (c : Cell) (h : cellOk c = true) :
    naCell (rawField c) = c := by
  cases c with
  | none => decide
  | some s =>
      have hs : s ∉ naValues := of_decide_eq_true h
      simp [naCell, rawField, hs]

/-- Reader step: a quote inside a quoted field switches to `afterQuote`. -/
theorem csvStep_quoted_quote (cur : List Char) (row : List String)
    (acc : List (List String)) :
    csvStep ⟨cur, row, acc, .quoted⟩ '\"' = ⟨cur, row, acc, .afterQuote⟩ := rfl

/-- Reader step: any other character inside a quoted field is appended. -/
theorem csvStep_quoted_other (c : Char) (hc : ¬ c = '\"') (cur : List Char)
    (row : List String) (acc : List (List String)) :
    csvStep ⟨cur, row, acc, .quoted⟩ c = ⟨cur ++ [c], row, acc, .quoted⟩ := by
  simp [csvStep, hc]

/-- Reader step: a second quote right after one appends a literal quote and
returns to the quoted field. -/
theorem csvStep_afterQuote_quote (cur : List Char) (row : List String)
    (acc : List (List String)) :
    csvStep ⟨cur, row, acc, .afterQuote⟩ '\"' = ⟨cur ++ ['\"'], row, acc, .quoted⟩ := rfl

/-- Running the reader over doubled quotes inside a quoted field appends the
original characters. -/
theorem foldl_escapeQuotes (d : List Char) :
    ∀ (cur : List Char) (row : List String) (acc : List (List String)),
      (escapeQuotes d).foldl csvStep ⟨cur, row, acc, .quoted⟩
        = ⟨cur ++ d, row, acc, .quoted⟩ := by
  induction d with
  | nil => intro cur row acc; simp [escapeQuotes]
  | cons c cs ih =>
      intro cur row acc
      by_cases hc : c = '\"'
      · subst hc
        rw [show escapeQuotes ('\"' :: cs) = '\"' :: '\"' :: escapeQuotes cs from rfl]
        simp only [List.foldl_cons, csvStep_quoted_quote, csvStep_afterQuote_quote]
        rw [ih (cur ++ ['\"']) row acc]
        simp
      · simp only [escapeQuotes, if_neg hc, List.foldl_cons, csvStep_quoted_other c hc]
        rw [ih (cur ++ [c]) row acc]
        simp

/-- Reader step: outside quotes a comma ends the field. -/
theorem csvStep_unquoted_comma (cur : List Char) (row : List String)
    (acc : List (List String)) :
    csvStep ⟨cur, row, acc, .unquoted⟩ ','
      = ⟨[], row ++ [String.mk cur], acc, .fieldStart⟩ := rfl

/-- Reader step: outside quotes a newline ends the record. -/
theorem csvStep_unquoted_newline (cur : List Char) (row : List String)
    (acc : List (List String)) :
    csvStep ⟨cur, row, acc, .unquoted⟩ '\n'
      = ⟨[], [], acc ++ [row ++ [String.mk cur]], .fieldStart⟩ := rfl

/-- Reader step: outside quotes an ordinary character extends the field. -/
theorem csvStep_unquoted_other (c : Char) (h1 : ¬ c = ',') (h2 : ¬ c = '\n')
    (cur : List Char) (row : List String) (acc : List (List String)) :
    csvStep ⟨cur, row, acc, .unquoted⟩ c = ⟨cur ++ [c], row, acc, .unquoted⟩ := by
  simp [csvStep, h1, h2]

/-- Running the reader over plain characters in an unquoted field appends
them. -/
theorem foldl_unquoted (d : List Char) (hd : ∀ c ∈ d, isSpecialChar c = false) :
    ∀ (cur : List Char) (row : List String) (acc : List (List String)),
      d.foldl csvStep ⟨cur, row, acc, .unquoted⟩ = ⟨cur ++ d, row, acc, .unquoted⟩ := by
  induction d with
  | nil => intro cur row acc; simp
  | cons c cs ih =>
      intro cur row acc
      have hc := hd c (List.mem_cons_self c cs)
      have h1 : ¬ c = ',' := by intro h; simp [isSpecialChar, h] at hc
      have h2 : ¬ c = '\n' := by intro h; simp [isSpecialChar, h] at hc
      simp only [List.foldl_cons, csvStep_unquoted_other c h1 h2]
      rw [ih (fun x hx => hd x (List.mem_cons_of_mem c hx)) (cur ++ [c]) row acc]
      simp

/-- Mode the reader is in right after consuming a rendered field that began
at field start: after the closing quote for a quoted field, at field start
for an empty plain field, inside an unquoted field otherwise. -/
def fieldEndMode (cs : List Char) : PMode :=
  if cs.any isSpecialChar then .afterQuote
  else match cs with
       | [] => .fieldStart
       | _ :: _ => .unquoted

/-- Reader step: field start, opening quote. -/
theorem csvStep_fieldStart_quote (cur : List Char) (row : List String)
    (acc : List (List String)) :
    csvStep ⟨cur, row, acc, .fieldStart⟩ '\"' = ⟨cur, row, acc, .quoted⟩ := rfl

/-- Reader step: field start, ordinary character opens an unquoted field. -/
theorem csvStep_fieldStart_other (c : Char) (hq : ¬ c = '\"') (h1 : ¬ c = ',')
    (h2 : ¬ c = '\n') (cur : List Char) (row : List String)
    (acc : List (List String)) :
    csvStep ⟨cur, row, acc, .fieldStart⟩ c = ⟨[c], row, acc, .unquoted⟩ := by
  simp [csvStep, hq, h1, h2]

/-- Consuming one rendered field from field start leaves exactly its raw
characters in the state. -/
theorem foldl_quoteChars (cs : List Char) (row : List String)
    (acc : List (List String)) :
    (quoteChars cs).foldl csvStep ⟨[], row, acc, .fieldStart⟩
      = ⟨cs, row, acc, fieldEndMode cs⟩ := by
  by_cases hq : cs.any isSpecialChar = true
  · rw [show quoteChars cs = '\"' :: (escapeQuotes cs ++ ['\"']) by simp [quoteChars, hq]]
    rw [show fieldEndMode cs = .afterQuote by simp [fieldEndMode, hq]]
    simp only [List.foldl_cons, csvStep_fieldStart_quote]
    rw [List.foldl_append, foldl_escapeQuotes cs [] row acc]
    simp only [List.nil_append, List.foldl_cons, List.foldl_nil, csvStep_quoted_quote]
  · have hq2 : cs.any isSpecialChar = false := by simpa using hq
    rw [show quoteChars cs = cs by simp [quoteChars, hq2]]
    cases cs with
    | nil => rw [show fieldEndMode [] = .fieldStart by simp [fieldEndMode]]; rfl
    | cons c rest =>
        have hall : ∀ x ∈ c :: rest, isSpecialChar x = false := by
          simpa [List.any_eq_false] using hq2
        have hc := hall c (List.mem_cons_self c rest)
        have hcq : ¬ c = '\"' := by intro h; simp [isSpecialChar, h] at hc
        have hc1 : ¬ c = ',' := by intro h; simp [isSpecialChar, h] at hc
        have hc2 : ¬ c = '\n' := by intro h; simp [isSpecialChar, h] at hc
        rw [show fieldEndMode (c :: rest) = .unquoted by simp [fieldEndMode, hq2]]
        simp only [List.foldl_cons, csvStep_fieldStart_other c hcq hc1 hc2]
        rw [foldl_unquoted rest (fun x hx => hall x (List.mem_cons_of_mem c hx)) [c] row acc]
        rfl

/-- After a full field, a comma closes it and returns to field start. -/
theorem csvStep_field_comma (cs : List Char) (row : List String)
    (acc : List (List String)) :
    csvStep ⟨cs, row, acc, fieldEndMode cs⟩ ','
      = ⟨[], row ++ [String.mk cs], acc, .fieldStart⟩ := by
  unfold fieldEndMode
  by_cases hq : cs.any isSpecialChar = true
  · simp only [hq, if_true]
    rfl
  · have hq2 : cs.any isSpecialChar = false := by simpa using hq
    simp only [hq2, Bool.false_eq_true, if_false]
    cases cs with
    | nil => rfl
    | cons c rest => rfl

/-- After a full field, a newline closes the record — provided the line is
not blank (a blank line is skipped). -/
theorem csvStep_field_newline (cs : List Char) (row : List String)
    (acc : List (List String)) (h : ¬ (row = [] ∧ cs = [])) :
    csvStep ⟨cs, row, acc, fieldEndMode cs⟩ '\n'
      = ⟨[], [], acc ++ [row ++ [String.mk cs]], .fieldStart⟩ := by
  unfold fieldEndMode
  by_cases hq : cs.any isSpecialChar = true
  · simp only [hq, if_true]
    rfl
  · have hq2 : cs.any isSpecialChar = false := by simpa using hq
    simp only [hq2, Bool.false_eq_true, if_false]
    cases cs with
    | nil =>
        have hrow : row ≠ [] := fun hr => h ⟨hr, rfl⟩
        show csvStep ⟨[], row, acc, .fieldStart⟩ '\n' = _
        simp [csvStep, isEmpty_false_of_ne_nil hrow]
    | cons c rest => rfl

/-- Consuming one whole rendered line appends the record of its raw fields
to the accumulator (for a non-blank line). -/
theorem foldl_line (raws : List (List Char)) :
    ∀ (row : List String) (acc : List (List String)),
      raws ≠ [] → ¬ (row = [] ∧ raws = [[]]) →
      (joinComma (raws.map quoteChars) ++ ['\n']).foldl csvStep
          ⟨[], row, acc, .fieldStart⟩
        = ⟨[], [], acc ++ [row ++ raws.map String.mk], .fieldStart⟩ := by
  induction raws with
  | nil => intro row acc h _; exact absurd rfl h
  | cons r rest ih =>
      intro row acc _ hguard
      cases rest with
      | nil =>
          rw [show joinComma ([r].map quoteChars) = quoteChars r from rfl]
          rw [List.foldl_append, foldl_quoteChars r row acc]
          simp only [List.foldl_cons, List.foldl_nil]
          rw [csvStep_field_newline r row acc
            (fun hb => hguard ⟨hb.1, by rw [hb.2]⟩)]
          simp
      | cons g t =>
          rw [show joinComma ((r :: g :: t).map quoteChars)
              = quoteChars r ++ ',' :: joinComma ((g :: t).map quoteChars) from rfl]
          rw [List.append_assoc, List.cons_append, List.foldl_append]
          rw [foldl_quoteChars r row acc]
          simp only [List.foldl_cons]
          rw [csvStep_field_comma r row acc]
          rw [ih (row ++ [String.mk r]) acc (by simp)
            (fun hb => by simp at hb)]
          simp

/-- `String.mk` of a cell's raw characters is its raw string. -/
theorem mk_rawChars (c : Cell) : String.mk (rawChars c) = rawField c := by
  cases c with
  | none => rfl
  | some s => cases s; rfl

/-- Consuming the rendered lines of all data rows appends one record of raw
fields per row. -/
theorem foldl_rows (rows : List Row) :
    ∀ (acc : List (List String)),
      (∀ r ∈ rows, r ≠ [] ∧ r.map rawChars ≠ [[]]) →
      ((rows.map rowChars).flatten).foldl csvStep ⟨[], [], acc, .fieldStart⟩
        = ⟨[], [], acc ++ rows.map (fun r => r.map rawField), .fieldStart⟩ := by
  induction rows with
  | nil => intro acc _; simp
  | cons r rs ih =>
      intro acc h
      obtain ⟨hr1, hr2⟩ := h r (List.mem_cons_self r rs)
      simp only [List.map_cons, List.flatten_cons]
      rw [List.foldl_append]
      rw [show rowChars r = joinComma ((r.map rawChars).map quoteChars) ++ ['\n'] by
        simp [rowChars, List.map_map]; rfl]
      rw [foldl_line (r.map rawChars) [] acc (by simpa using hr1)
        (fun hb => hr2 hb.2)]
      rw [ih _ (fun x hx => h x (List.mem_cons_of_mem r hx))]
      have hmk : (r.map rawChars).map String.mk = r.map rawField := by
        rw [List.map_map]
        have : (String.mk ∘ rawChars) = rawField := funext mk_rawChars
        rw [this]
      simp [hmk]

/-- Consuming the header line from the initial state records the column
names (for a header that is not a blank line). -/
theorem foldl_header (cols : List String) (hc : cols ≠ []) (hc2 : cols ≠ [""]) :
    (headerChars cols).foldl csvStep initPState = ⟨[], [], [cols], .fieldStart⟩ := by
  have h1 : cols.map String.data ≠ [] := by simpa using hc
  have h2 : ¬ (([] : List String) = [] ∧ cols.map String.data = [[]]) := by
    rintro ⟨-, hmap⟩
    apply hc2
    cases cols with
    | nil => simp at hmap
    | cons c cr =>
        cases cr with
        | nil =>
            simp at hmap
            cases c
            simp_all
        | cons d dr => simp at hmap
  rw [show headerChars cols = joinComma ((cols.map String.data).map quoteChars) ++ ['\n'] by
    simp [headerChars, List.map_map]; rfl]
  rw [show initPState = ⟨[], [], [], .fieldStart⟩ from rfl]
  rw [foldl_line (cols.map String.data) [] [] h1 h2]
  have hmk : (cols.map String.data).map String.mk = cols := by
    rw [List.map_map]
    have : (String.mk ∘ String.data) = id := by
      funext s
      cases s
      rfl
    rw [this, List.map_id]
  simp [hmk]

/-- NA conversion of the raw fields of a row of ok cells is the row
itself. -/
theorem map_naCell_map_rawField (r : Row) (h : ∀ c ∈ r, cellOk c = true) :
    (r.map rawField).map naCell = r := by
  induction r with
  | nil => rfl
  | cons c cr ih =>
      simp only [List.map_cons]
      rw [naCell_rawField c (h c (List.mem_cons_self c cr)),
        ih (fun x hx => h x (List.mem_cons_of_mem c hx))]

/-- NA conversion of the raw records of rows of ok cells gives back the
rows. -/
theorem rows_na_roundtrip (rows : List Row)
    (h : ∀ r ∈ rows, ∀ c ∈ r, cellOk c = true) :
    (rows.map (fun r => r.map rawField)).map (fun r => r.map naCell) = rows := by
  induction rows with
  | nil => rfl
  | cons r rs ih =>
      simp only [List.map_cons]
      rw [map_naCell_map_rawField r (h r (List.mem_cons_self r rs)),
        ih (fun x hx => h x (List.mem_cons_of_mem r hx))]

/-- C9 (amended): saving a table to storage and reloading it through the
CSV serialize/parse cycle returns the table unchanged, provided the written
text reads back verbatim under pandas' defaults: the header has at least
one column, no empty name and no duplicate names (those are mangled to
`Unnamed: n` / `name.1` on read); every row is as wide as the header; every
cell is missing or a string outside the default NA sentinels (so no cell's
written form reads back as missing); no single-column row is entirely
missing (such a row writes as a blank line, which `read_csv` skips); and
every column either contains a value that cannot parse as a number or
boolean — forcing the column to object dtype, read back as plain strings —
or is entirely missing.  The NA conditions are forced by the
counterexample (pandas maps an empty field, and any NA sentinel, to a
missing value on read); the column condition excludes the columns that
dtype inference re-renders (`"01"` reloads as the integer `1`).  The
`Nodup` and object-column hypotheses restrict the theorem to the tables on
which `parseCsv` is a faithful model of the reader; they are not needed for
the model-level equality itself. -/
theorem save_load_roundtrip (t : Table)
    (hc : t.cols ≠ []) (hnoempty : "" ∉ t.cols) (_hnodup : t.cols.Nodup)
    (hlen : ∀ r ∈ t.rows, r.length = t.cols.length)
    (hcells : ∀ r ∈ t.rows, ∀ c ∈ r, cellOk c = true)
    (hshape : ∀ r ∈ t.rows, r ≠ [none])
    (_hobj : ∀ j < t.cols.length, colObjectSafe t j = true) :
    parseCsv (EditorApp.save_data_to_s3 t) = some t := by
  have hc2 : t.cols ≠ [""] := by
    intro h
    exact hnoempty (by rw [h]; exact List.mem_singleton.mpr rfl)
  have hshape2 : ∀ r ∈ t.rows, r ≠ [] ∧ r ≠ [none] := by
    intro r hr
    refine ⟨?_, hshape r hr⟩
    intro hnil
    have hl := hlen r hr
    rw [hnil] at hl
    exact hc (List.length_eq_zero.mp hl.symm)
  have hraw : ∀ r ∈ t.rows, r ≠ [] ∧ r.map rawChars ≠ [[]] := by
    intro r hr
    refine ⟨(hshape2 r hr).1, ?_⟩
    intro hm
    cases r with
    | nil => simp at hm
    | cons c cr =>
        cases cr with
        | nil =>
            simp only [List.map_cons, List.map_nil] at hm
            have hc0 : rawChars c = [] := by
              injection hm
            cases c with
            | none => exact (hshape2 _ hr).2 (by rfl)
            | some s =>
                have hs : s = "" := by
                  cases s
                  simp [rawChars] at hc0
                  simp [hc0]
                have hok := hcells _ hr (some s) (List.mem_cons_self _ _)
                rw [hs] at hok
                have : ("" : String) ∉ naValues := of_decide_eq_true hok
                exact this (by simp [naValues])
        | cons d dr => simp at hm
  unfold EditorApp.save_data_to_s3 tableToCsv parseCsv parseCsvRaw
  rw [show (String.mk (headerChars t.cols ++ (t.rows.map rowChars).flatten)).data
      = headerChars t.cols ++ (t.rows.map rowChars).flatten from rfl]
  rw [List.foldl_append, foldl_header t.cols hc hc2, foldl_rows t.rows [t.cols] hraw]
  rw [show csvFinish ⟨[], [], [t.cols] ++ t.rows.map (fun r => r.map rawField),
      .fieldStart⟩ = t.cols :: t.rows.map (fun r => r.map rawField) from rfl]
  simp only []
  rw [rows_na_roundtrip t.rows hcells]

/-- Concrete table for the C9 witness: two columns with distinct non-empty
names, both forced to object dtype, one missing value, one cell with an
embedded comma and one with an embedded quote. -/
def c9table : Table :=
  ⟨["name", "note"],
   [[some "alice", none],
    [some "1,2", some "he said \"hi\""]]⟩

/-- Witness for the amended C9: the concrete table satisfies every
hypothesis and round-trips through the save/reload cycle. -/
theorem save_load_roundtrip_witness :
    c9table.cols ≠ [] ∧
    "" ∉ c9table.cols ∧
    c9table.cols.Nodup ∧
    (∀ r ∈ c9table.rows, r.length = c9table.cols.length) ∧
    (∀ r ∈ c9table.rows, ∀ c ∈ r, cellOk c = true) ∧
    (∀ r ∈ c9table.rows, r ≠ [none]) ∧
    (∀ j < c9table.cols.length, colObjectSafe c9table j = true) ∧
    parseCsv (EditorApp.save_data_to_s3 c9table) = some c9table :=
  ⟨by decide, by decide, by decide, by decide, by decide, by decide, by decide,
    save_load_roundtrip c9table (by decide) (by decide) (by decide) (by decide)
      (by decide) (by decide) (by decide)⟩
